import Mathlib

/-!
Verification of the job orchestration engine of the Orthanc source tree.

The repository's visible source is `Core/Enumerations.h`, which declares the
job-related enumerations (`JobState`, `JobStepCode`, `JobStopReason`, and the
error codes `ErrorCode_BadJobOrdering`, `ErrorCode_CanceledJob`).  Those
enumerations are embedded below exactly as declared in the source.  The engine
itself (Registry, Scheduler, Job state machine, Backoff policy) is not part of
the visible source; its behaviour is modelled from the specification, with each
such definition marked `Modelled from the spec:` in its doc comment.
-/

namespace Orthanc

/-- Embedded from `Core/Enumerations.h` lines 622-630: `enum JobState`,
constructors in source order. -/
inductive JobState where
  | Pending
  | Running
  | Success
  | Failure
  | Paused
  | Retry
deriving DecidableEq, Repr, Fintype

/-- Embedded from `Core/Enumerations.h` lines 632-638: `enum JobStepCode`,
constructors in source order. -/
inductive JobStepCode where
  | Success
  | Failure
  | Continue
  | Retry
deriving DecidableEq, Repr, Fintype

/-- Embedded from `Core/Enumerations.h` lines 640-647: `enum JobStopReason`,
constructors in source order. -/
inductive JobStopReason where
  | Paused
  | Canceled
  | Success
  | Failure
  | Retry
deriving DecidableEq, Repr, Fintype

/-- The identifier of each `JobStepCode` enumerator as written in the source,
with the `JobStepCode_` prefix stripped. -/
def JobStepCode.enumName : JobStepCode → String
  | .Success => "Success"
  | .Failure => "Failure"
  | .Continue => "Continue"
  | .Retry => "Retry"

/-- The identifier of each `JobStopReason` enumerator as written in the source,
with the `JobStopReason_` prefix stripped. -/
def JobStopReason.enumName : JobStopReason → String
  | .Paused => "Paused"
  | .Canceled => "Canceled"
  | .Success => "Success"
  | .Failure => "Failure"
  | .Retry => "Retry"

/-- Embedded from `Core/Enumerations.h` line 209: the numeric value of
`ErrorCode_BadJobOrdering` (explicit enumerator value 2028). -/
def ErrorCode_BadJobOrdering : Nat := 2028

/-- Embedded from `Core/Enumerations.h` line 164: the numeric value of
`ErrorCode_CanceledJob` (explicit enumerator value 37). -/
def ErrorCode_CanceledJob : Nat := 37

/-- Modelled from the spec: §4.5 Backoff Policy configuration, missing from
the visible source.  `base` and `maxInterval` are the configured base delay
and maximum interval. -/
structure BackoffConfig where
  base : Nat
  maxInterval : Nat
deriving DecidableEq, Repr

/-- Modelled from the spec: §4.5 `Backoff(retryCount) -> duration`, missing
from the visible source: capped exponential `base * 2^retryCount`, capped at
the maximum interval; a pure function with no hidden state. -/
def backoff (c : BackoffConfig) (retryCount : Nat) : Nat :=
  min (c.base * 2 ^ retryCount) c.maxInterval

/-- Modelled from the spec: §3/§4.1 an Operation descriptor of an Operation
Chain, missing from the visible source.  Only the dependency structure matters
for the ordering-validity invariant: `deps` lists the indices of the
operations whose outputs this operation consumes. -/
structure Operation where
  deps : List Nat
deriving DecidableEq, Repr

/-- Modelled from the spec: §4.1 `Validate()` of an Operation Chain, missing
from the visible source.  The chain is valid when every operation `k`
references only inputs produced by operations with index `< k`. -/
def chainValid (ops : List Operation) : Bool :=
  ops.enum.all fun ko => ko.2.deps.all fun d => d < ko.1

/-- Modelled from the spec: §3 the Job record, missing from the visible
source.  `checkpoint` is the opaque resume state (modelled as a `Nat`),
`history` the append-only log of `(fromState, toState, stopReason)`
transitions, `stopReason` the most recent reason the job left `Running`. -/
structure Job where
  id : Nat
  state : JobState
  priority : Int
  operations : List Operation
  cursor : Nat
  progress : ℚ
  retryCount : Nat
  maxRetries : Nat
  nextEligibleTime : Nat
  cancelRequested : Bool
  pauseRequested : Bool
  errorDetail : Option String
  checkpoint : Nat
  stopReason : Option JobStopReason
  history : List (JobState × JobState × Option JobStopReason)
deriving DecidableEq, Repr

/-- Modelled from the spec: §3 the Job freshly created by `Submit` —
`state = Pending`, `retryCount = 0`, `progress = 0`, no flags set. -/
def initialJob (id : Nat) (ops : List Operation) (priority : Int)
    (maxRetries : Nat) : Job :=
  { id := id
    state := .Pending
    priority := priority
    operations := ops
    cursor := 0
    progress := 0
    retryCount := 0
    maxRetries := maxRetries
    nextEligibleTime := 0
    cancelRequested := false
    pauseRequested := false
    errorDetail := none
    checkpoint := 0
    stopReason := none
    history := [] }

/-- Modelled from the spec: §7 the error taxonomy of the Registry contract,
missing from the visible source. -/
inductive RegError where
  | OrderingError
  | NotFoundError
  | InvalidStateError
deriving DecidableEq, Repr

/-- Modelled from the spec: the error-code enumerator of `Core/Enumerations.h`
each Registry error is reported through: `OrderingError` is
`ErrorCode_BadJobOrdering`; the codes of the other two are outside the
visible source. -/
def RegError.errorCode : RegError → Option Nat
  | .OrderingError => some ErrorCode_BadJobOrdering
  | .NotFoundError => none
  | .InvalidStateError => none

/-- Modelled from the spec: §4.3 the Registry's job table, an association
list from job identifier to Job. -/
def Registry := List (Nat × Job)

/-- Look up a job by identifier. -/
def Registry.find (r : Registry) (id : Nat) : Option Job :=
  (List.find? (fun p => p.1 == id) r).map Prod.snd

/-- Number of jobs in the registry. -/
def Registry.size (r : Registry) : Nat :=
  List.length r

/-- Replace the job stored under `id` by the image of `f`. -/
def Registry.update (r : Registry) (id : Nat) (f : Job → Job) : Registry :=
  List.map (fun p => if p.1 == id then (p.1, f p.2) else p) r

/-- An identifier not yet present in the registry. -/
def Registry.freshId (r : Registry) : Nat :=
  (List.map Prod.fst r).foldr (fun a b => max a b) 0 + 1

/-- Modelled from the spec: §4.3 `Submit(operations, priority) -> id`,
missing from the visible source.  Validation happens before any state is
created: an invalid chain is rejected with `OrderingError` and the registry
is returned unchanged; a valid chain is stored `Pending` under a fresh id. -/
def submit (r : Registry) (ops : List Operation) (priority : Int)
    (maxRetries : Nat) : Except RegError Nat × Registry :=
  if chainValid ops then
    let id := Registry.freshId r
    (.ok id, (id, initialJob id ops priority maxRetries) :: r)
  else
    (.error .OrderingError, r)

/-- Modelled from the spec: the states from which an external pause request is
defined — the non-terminal, not-already-paused states, since the pause flag is
observed at the boundary of a future step. -/
def pauseAllowed : JobState → Bool
  | .Pending => true
  | .Running => true
  | .Retry => true
  | _ => false

/-- Modelled from the spec: the states from which an external cancel request
is defined — every non-terminal state. -/
def cancelAllowed : JobState → Bool
  | .Pending => true
  | .Running => true
  | .Retry => true
  | .Paused => true
  | _ => false

/-- Modelled from the spec: §4.3 `RequestPause(id)`, missing from the visible
source.  Fails with `NotFoundError` for an unknown id, `InvalidStateError`
when the pause transition is not defined from the current state; otherwise
sets the `pauseRequested` flag (flags only — never a direct state write). -/
def requestPause (r : Registry) (id : Nat) : Except RegError Unit × Registry :=
  match Registry.find r id with
  | none => (.error .NotFoundError, r)
  | some j =>
      if pauseAllowed j.state then
        (.ok (), Registry.update r id fun j => { j with pauseRequested := true })
      else
        (.error .InvalidStateError, r)

/-- Modelled from the spec: §4.3 `RequestCancel(id)`, missing from the visible
source.  Fails with `NotFoundError` for an unknown id, `InvalidStateError`
when cancellation is not defined from the current state; otherwise sets the
`cancelRequested` flag. -/
def requestCancel (r : Registry) (id : Nat) : Except RegError Unit × Registry :=
  match Registry.find r id with
  | none => (.error .NotFoundError, r)
  | some j =>
      if cancelAllowed j.state then
        (.ok (), Registry.update r id fun j => { j with cancelRequested := true })
      else
        (.error .InvalidStateError, r)

/-- Modelled from the spec: §4.2 the Paused → Pending transition taken by
`Resume`: the job re-enters the run queue at the same priority, with the
pause flag consumed and the checkpoint untouched. -/
def resumeJob (j : Job) : Job :=
  { j with state := .Pending
           pauseRequested := false
           history := j.history ++ [(j.state, .Pending, none)] }

/-- Modelled from the spec: §4.3 `Resume(id)`, missing from the visible
source.  Fails with `NotFoundError` for an unknown id, `InvalidStateError`
when the job is not `Paused`. -/
def resume (r : Registry) (id : Nat) : Except RegError Unit × Registry :=
  match Registry.find r id with
  | none => (.error .NotFoundError, r)
  | some j =>
      if j.state = .Paused then
        (.ok (), Registry.update r id resumeJob)
      else
        (.error .InvalidStateError, r)

/-- Modelled from the spec: §4.2 the Pending/Retry → Running transition taken
when a scheduler worker picks the job.  The checkpoint, flags and retry
bookkeeping are untouched. -/
def markRunning (j : Job) : Job :=
  { j with state := .Running
           history := j.history ++ [(j.state, .Running, none)] }

/-- Modelled from the spec: §4.1 the outcome of one `StepAt` invocation of the
Operation Chain — the step code together with the updated cursor, progress
and checkpoint the chain reports.  The chain's payload work is external
(§1), so the outcome is an input to the engine's transition function. -/
structure StepResult where
  code : JobStepCode
  nextCursor : Nat
  newProgress : ℚ
  newCheckpoint : Nat
  detail : Option String
deriving DecidableEq, Repr

/-- Modelled from the spec: §4.2 the transition applied when a worker reaches
a step boundary of a Running job.  The cooperative flags are consulted first
(a set `cancelRequested` ends the job `Failure` with stop reason `Canceled`;
a set `pauseRequested` moves it to `Paused` with the checkpoint preserved),
and only otherwise is the chain's step outcome `res` applied as in the §4.2
table: `Success` forces progress to 1, `Failure` records the error detail,
`Continue` keeps the job Running with progress clamped to `[0,1]` and kept
non-decreasing, `Retry` increments `retryCount` and schedules
`nextEligibleTime = now + backoff(retryCount)` when retries remain, and
forces `Failure` when they are exhausted. -/
def stepBoundary (cfg : BackoffConfig) (now : Nat) (j : Job)
    (res : StepResult) : Job :=
  if j.cancelRequested then
    { j with state := .Failure
             stopReason := some .Canceled
             errorDetail := some "canceled"
             history := j.history ++ [(.Running, .Failure, some .Canceled)] }
  else if j.pauseRequested then
    { j with state := .Paused
             pauseRequested := false
             stopReason := some .Paused
             history := j.history ++ [(.Running, .Paused, some .Paused)] }
  else
    match res.code with
    | .Success =>
        { j with state := .Success
                 progress := 1
                 stopReason := some .Success
                 history := j.history ++ [(.Running, .Success, some .Success)] }
    | .Failure =>
        { j with state := .Failure
                 errorDetail := res.detail
                 stopReason := some .Failure
                 history := j.history ++ [(.Running, .Failure, some .Failure)] }
    | .Continue =>
        { j with cursor := res.nextCursor
                 progress := max j.progress (min res.newProgress 1)
                 checkpoint := res.newCheckpoint
                 history := j.history ++ [(.Running, .Running, none)] }
    | .Retry =>
        if j.retryCount < j.maxRetries then
          { j with state := .Retry
                   retryCount := j.retryCount + 1
                   nextEligibleTime := now + backoff cfg (j.retryCount + 1)
                   stopReason := some .Retry
                   history := j.history ++ [(.Running, .Retry, some .Retry)] }
        else
          { j with state := .Failure
                   errorDetail := some "retries exhausted"
                   stopReason := some .Failure
                   history := j.history ++ [(.Running, .Failure, some .Failure)] }

/-- Modelled from the spec: §4.2/§4.3 the one-step transition relation on a
single Job: a scheduler pick of a Pending job, a pick of a Retry job whose
`nextEligibleTime` has elapsed, one step boundary of a Running job, an
external resume of a Paused job, and the two flag-setting control calls. -/
inductive JobStep (cfg : BackoffConfig) : Job → Job → Prop
  | pick (j : Job) :
      j.state = .Pending → JobStep cfg j (markRunning j)
  | retryPick (j : Job) (now : Nat) :
      j.state = .Retry → j.nextEligibleTime ≤ now →
      JobStep cfg j (markRunning j)
  | step (j : Job) (now : Nat) (res : StepResult) :
      j.state = .Running → JobStep cfg j (stepBoundary cfg now j res)
  | doResume (j : Job) :
      j.state = .Paused → JobStep cfg j (resumeJob j)
  | setPauseFlag (j : Job) :
      pauseAllowed j.state = true →
      JobStep cfg j { j with pauseRequested := true }
  | setCancelFlag (j : Job) :
      cancelAllowed j.state = true →
      JobStep cfg j { j with cancelRequested := true }

/-- Modelled from the spec: the jobs reachable from a given job by any number
of engine transitions. -/
inductive ReachFrom (cfg : BackoffConfig) : Job → Job → Prop
  | refl (j : Job) : ReachFrom cfg j j
  | tail {j k l : Job} : ReachFrom cfg j k → JobStep cfg k l → ReachFrom cfg j l

/-- Modelled from the spec: §3 Lifecycle — the jobs reachable in any
execution: created exactly once at submission (via `initialJob`, from a
chain accepted by validation) and mutated only by engine transitions. -/
inductive JobReachable (cfg : BackoffConfig) : Job → Prop
  | submitted (id : Nat) (ops : List Operation) (priority : Int)
      (maxRetries : Nat) :
      chainValid ops = true →
      JobReachable cfg (initialJob id ops priority maxRetries)
  | tail {j k : Job} : JobReachable cfg j → JobStep cfg j k → JobReachable cfg k

/-- Modelled from the spec: §4.4 the shared state of the Scheduler's
fixed-size worker pool: the job table (identifier to lifecycle state) and,
per worker, the job it currently executes (`none` when idle). -/
structure PoolState where
  jobs : List (Nat × JobState)
  workers : List (Option Nat)
deriving DecidableEq, Repr

/-- Whether some worker currently holds the job `jid`. -/
def PoolState.jobOwned (p : PoolState) (jid : Nat) : Bool :=
  p.workers.any fun w => w == some jid

/-- Modelled from the spec: §4.3 the states from which the scheduler may pick
a job — Pending, Retry (once eligible; eligibility timing is not part of the
pool model), and Running for a job yielded back to the queue after a
`Continue` step. -/
def runnableState : JobState → Bool
  | .Pending => true
  | .Retry => true
  | .Running => true
  | _ => false

/-- Set the stored state of job `jid` in the job table. -/
def setJobState (jobs : List (Nat × JobState)) (jid : Nat) (s : JobState) :
    List (Nat × JobState) :=
  jobs.map fun p => if p.1 == jid then (p.1, s) else p

/-- Modelled from the spec: §4.4 one atomic transition of the worker pool.
`acquire` is the atomic mark-Running: in one transition an idle worker claims
a runnable job held by no worker and sets its state to Running.  `finish` is
one worker completing a `StepAt` and reporting: the job's new state is
recorded and the worker yields the job back (becomes idle). -/
inductive PoolStep : PoolState → PoolState → Prop
  | acquire (p : PoolState) (w jid : Nat) (s : JobState) :
      p.workers.get? w = some none →
      (p.jobs.find? fun q => q.1 == jid).map Prod.snd = some s →
      runnableState s = true →
      p.jobOwned jid = false →
      PoolStep p ⟨setJobState p.jobs jid .Running, p.workers.set w (some jid)⟩
  | finish (p : PoolState) (w jid : Nat) (s : JobState) :
      p.workers.get? w = some (some jid) →
      PoolStep p ⟨setJobState p.jobs jid s, p.workers.set w none⟩

/-- Modelled from the spec: the pool states reachable from a start state in
which every worker of the fixed-size pool is idle. -/
inductive PoolReachable : PoolState → Prop
  | init (jobs : List (Nat × JobState)) (n : Nat) :
      PoolReachable ⟨jobs, List.replicate n none⟩
  | tail {p q : PoolState} : PoolReachable p → PoolStep p q → PoolReachable q

/-- At most one worker holds any given job: serializability of per-job
execution. -/
def Exclusive (p : PoolState) : Prop :=
  ∀ w₁ w₂ jid, p.workers.get? w₁ = some (some jid) →
    p.workers.get? w₂ = some (some jid) → w₁ = w₂

/-- Modelled from the spec: §4.2 the set of state-to-state edges of the
transition table (the trigger column elided: two table rows between the same
pair of states collapse to one edge). -/
def tableEdge : JobState → JobState → Bool
  | .Pending, .Running => true
  | .Running, .Success => true
  | .Running, .Failure => true
  | .Running, .Running => true
  | .Running, .Retry => true
  | .Running, .Paused => true
  | .Retry, .Running => true
  | .Paused, .Pending => true
  | _, _ => false

/-- The bookkeeping invariant of §3 maintained by every engine transition:
the retry counter is bounded by `maxRetries` and progress lies in `[0,1]`. -/
def JobInv (j : Job) : Prop :=
  j.retryCount ≤ j.maxRetries ∧ 0 ≤ j.progress ∧ j.progress ≤ 1

/-! ## Theorems -/

/-- One engine transition preserves the bookkeeping invariant. -/
lemma jobInv_step {cfg : BackoffConfig} {j k : Job} (hs : JobStep cfg j k)
    (h : JobInv j) : JobInv k := by
  obtain ⟨h1, h2, h3⟩ := h
  cases hs with
  | pick hj => exact ⟨h1, h2, h3⟩
  | retryPick now hj hn => exact ⟨h1, h2, h3⟩
  | doResume hj => exact ⟨h1, h2, h3⟩
  | setPauseFlag hj => exact ⟨h1, h2, h3⟩
  | setCancelFlag hj => exact ⟨h1, h2, h3⟩
  | step now res hj =>
      unfold stepBoundary
      split
      · exact ⟨h1, h2, h3⟩
      split
      · exact ⟨h1, h2, h3⟩
      split
      · exact ⟨h1, by norm_num, by norm_num⟩
      · exact ⟨h1, h2, h3⟩
      · exact ⟨h1, le_trans h2 (le_max_left _ _),
          max_le h3 (min_le_right _ _)⟩
      · split
        · next hlt => exact ⟨hlt, h2, h3⟩
        · exact ⟨h1, h2, h3⟩

/-- Every reachable job satisfies the bookkeeping invariant. -/
lemma jobInv_reachable {cfg : BackoffConfig} {j : Job}
    (h : JobReachable cfg j) : JobInv j := by
  induction h with
  | submitted id ops priority maxRetries hv =>
      exact ⟨Nat.zero_le _, le_refl 0, by norm_num [initialJob]⟩
  | tail _ hs ih => exact jobInv_step hs ih

/-- C5: Backoff is a pure deterministic function of retryCount: it returns
`min (base * 2^retryCount) maxInterval`; two calls with the same retryCount
return the same duration; and the duration is monotonically non-decreasing in
retryCount up to the configured cap. -/
theorem backoff_capped_exponential (c : BackoffConfig) (r₁ r₂ : Nat) :
    backoff c r₁ = min (c.base * 2 ^ r₁) c.maxInterval ∧
    (r₁ = r₂ → backoff c r₁ = backoff c r₂) ∧
    (r₁ ≤ r₂ → backoff c r₁ ≤ backoff c r₂) := by
  refine ⟨rfl, fun h => by rw [h], fun h => ?_⟩
  exact min_le_min
    (Nat.mul_le_mul_left _ (Nat.pow_le_pow_right (by norm_num) h)) le_rfl

/-- Witness for C5 at a concrete configuration and retry counts. -/
theorem backoff_capped_exponential_witness :
    backoff ⟨100, 3000⟩ 2 = min (100 * 2 ^ 2) 3000 ∧
    (2 : Nat) ≤ 5 ∧ backoff ⟨100, 3000⟩ 2 ≤ backoff ⟨100, 3000⟩ 5 :=
  ⟨(backoff_capped_exponential ⟨100, 3000⟩ 2 5).1, by decide,
   (backoff_capped_exponential ⟨100, 3000⟩ 2 5).2.2 (by decide)⟩

/-- C10: the stop-reason taxonomy equals the step-outcome taxonomy minus
`Continue` plus the two externally triggered reasons: every `JobStepCode`
except `Continue` has a same-named `JobStopReason`; the only `JobStopReason`
values not named after a step code are `Paused` and `Canceled` (which name no
step code); and no `JobStopReason` is named `Continue`. -/
theorem stopReason_taxonomy :
    (∀ c : JobStepCode, c ≠ .Continue →
      ∃ s : JobStopReason, s.enumName = c.enumName) ∧
    (∀ s : JobStopReason,
      s.enumName = "Paused" ∨ s.enumName = "Canceled" ∨
      ∃ c : JobStepCode, c ≠ .Continue ∧ c.enumName = s.enumName) ∧
    (∀ c : JobStepCode, c.enumName ≠ "Paused" ∧ c.enumName ≠ "Canceled") ∧
    (∀ s : JobStopReason, s.enumName ≠ JobStepCode.enumName .Continue) := by
  refine ⟨fun c hc => ?_, fun s => ?_, fun c => ?_, fun s => ?_⟩
  · cases c with
    | Success => exact ⟨.Success, rfl⟩
    | Failure => exact ⟨.Failure, rfl⟩
    | Continue => exact absurd rfl hc
    | Retry => exact ⟨.Retry, rfl⟩
  · cases s with
    | Paused => exact Or.inl rfl
    | Canceled => exact Or.inr (Or.inl rfl)
    | Success => exact Or.inr (Or.inr ⟨.Success, by decide, rfl⟩)
    | Failure => exact Or.inr (Or.inr ⟨.Failure, by decide, rfl⟩)
    | Retry => exact Or.inr (Or.inr ⟨.Retry, by decide, rfl⟩)
  · cases c <;> exact ⟨by decide, by decide⟩
  · cases s <;> decide

/-- Witness for C10: the same-named stop reason exists for the concrete step
code `Retry`. -/
theorem stopReason_taxonomy_witness :
    JobStepCode.Retry ≠ JobStepCode.Continue ∧
    ∃ s : JobStopReason, s.enumName = JobStepCode.enumName .Retry :=
  ⟨by decide, stopReason_taxonomy.1 .Retry (by decide)⟩

/-- C1: a submitted chain violating the ordering-validity invariant makes
`Submit` fail with `OrderingError` (reported through the source enumerator
`ErrorCode_BadJobOrdering`) and leaves the registry unchanged, so no job is
created and the registry size before and after the call is the same. -/
theorem submit_invalid_chain_rejected (r : Registry) (ops : List Operation)
    (priority : Int) (maxRetries : Nat) (h : chainValid ops = false) :
    (submit r ops priority maxRetries).1 = .error .OrderingError ∧
    (submit r ops priority maxRetries).2 = r ∧
    Registry.size (submit r ops priority maxRetries).2 = Registry.size r ∧
    RegError.errorCode .OrderingError = some ErrorCode_BadJobOrdering := by
  refine ⟨?_, ?_, ?_, rfl⟩ <;> simp [submit, h]

/-- Witness for C1: the one-operation chain whose operation 0 consumes its
own output (dependency index 0) is invalid and rejected on the empty
registry. -/
theorem submit_invalid_chain_rejected_witness :
    chainValid [⟨[0]⟩] = false ∧
    (submit [] [⟨[0]⟩] 5 3).1 = .error .OrderingError ∧
    (submit [] [⟨[0]⟩] 5 3).2 = [] ∧
    Registry.size (submit [] [⟨[0]⟩] 5 3).2 = Registry.size [] :=
  ⟨by decide,
   (submit_invalid_chain_rejected [] [⟨[0]⟩] 5 3 (by decide)).1,
   (submit_invalid_chain_rejected [] [⟨[0]⟩] 5 3 (by decide)).2.1,
   (submit_invalid_chain_rejected [] [⟨[0]⟩] 5 3 (by decide)).2.2.1⟩

/-- C8: `RequestPause`, `RequestCancel` and `Resume` fail with
`NotFoundError` for an id not present in the registry; for a known job whose
current state does not define the requested transition they fail with
`InvalidStateError`; in every failing case the registry — hence the job's
state — is unchanged. -/
theorem control_surface_errors (r : Registry) (id : Nat) :
    (Registry.find r id = none →
      (requestPause r id).1 = .error .NotFoundError ∧
      (requestPause r id).2 = r ∧
      (requestCancel r id).1 = .error .NotFoundError ∧
      (requestCancel r id).2 = r ∧
      (resume r id).1 = .error .NotFoundError ∧
      (resume r id).2 = r) ∧
    (∀ j, Registry.find r id = some j →
      (pauseAllowed j.state = false →
        (requestPause r id).1 = .error .InvalidStateError ∧
        (requestPause r id).2 = r) ∧
      (cancelAllowed j.state = false →
        (requestCancel r id).1 = .error .InvalidStateError ∧
        (requestCancel r id).2 = r) ∧
      (j.state ≠ .Paused →
        (resume r id).1 = .error .InvalidStateError ∧
        (resume r id).2 = r)) := by
  constructor
  · intro h
    refine ⟨?_, ?_, ?_, ?_, ?_, ?_⟩ <;>
      simp [requestPause, requestCancel, resume, h]
  · intro j hj
    refine ⟨fun hp => ?_, fun hc => ?_, fun hs => ?_⟩
    · constructor <;> simp [requestPause, hj, hp]
    · constructor <;> simp [requestCancel, hj, hc]
    · constructor <;> simp [resume, hj, hs]

/-- Witness for C8: on a registry holding the single job 1 in `Success`
state, the unknown id 2 yields `NotFoundError` and resuming the non-Paused
job 1 yields `InvalidStateError`, with the registry unchanged. -/
theorem control_surface_errors_witness :
    (requestPause [(1, initialJob 1 [] 0 3)] 2).1 = .error .NotFoundError ∧
    (resume [(1, initialJob 1 [] 0 3)] 1).1 = .error .InvalidStateError ∧
    (resume [(1, initialJob 1 [] 0 3)] 1).2 = [(1, initialJob 1 [] 0 3)] :=
  ⟨((control_surface_errors [(1, initialJob 1 [] 0 3)] 2).1 (by decide)).1,
   (((control_surface_errors [(1, initialJob 1 [] 0 3)] 1).2
      (initialJob 1 [] 0 3) (by decide)).2.2 (by decide)).1,
   (((control_surface_errors [(1, initialJob 1 [] 0 3)] 1).2
      (initialJob 1 [] 0 3) (by decide)).2.2 (by decide)).2⟩

/-- C2: in every reachable execution `retryCount` never exceeds
`maxRetries`; a step returning `Retry` with `retryCount < maxRetries` moves
the job to `Retry` with the counter incremented, and one returning `Retry`
with `retryCount ≥ maxRetries` moves it to `Failure` instead (counter
unchanged). -/
theorem retryCount_never_exceeds_max (cfg : BackoffConfig) (j : Job)
    (h : JobReachable cfg j) (now : Nat) (res : StepResult) :
    j.retryCount ≤ j.maxRetries ∧
    (j.cancelRequested = false → j.pauseRequested = false →
      res.code = .Retry →
      (j.retryCount < j.maxRetries →
        (stepBoundary cfg now j res).state = .Retry ∧
        (stepBoundary cfg now j res).retryCount = j.retryCount + 1) ∧
      (j.maxRetries ≤ j.retryCount →
        (stepBoundary cfg now j res).state = .Failure ∧
        (stepBoundary cfg now j res).retryCount = j.retryCount)) := by
  refine ⟨(jobInv_reachable h).1, fun hc hp hcode => ⟨fun hlt => ?_, fun hge => ?_⟩⟩
  · constructor <;> simp [stepBoundary, hc, hp, hcode, hlt]
  · have hnlt : ¬ j.retryCount < j.maxRetries := by omega
    constructor <;> simp [stepBoundary, hc, hp, hcode, hnlt]

/-- Witness for C2: the freshly submitted empty-chain job picked by the
scheduler is reachable and Running with counter 0 of 3; a `Retry` step moves
it to `Retry` with counter 1. -/
theorem retryCount_never_exceeds_max_witness :
    (markRunning (initialJob 1 [] 0 3)).retryCount ≤
      (markRunning (initialJob 1 [] 0 3)).maxRetries ∧
    (stepBoundary ⟨1, 10⟩ 0 (markRunning (initialJob 1 [] 0 3))
      ⟨.Retry, 0, 0, 0, none⟩).state = .Retry ∧
    (stepBoundary ⟨1, 10⟩ 0 (markRunning (initialJob 1 [] 0 3))
      ⟨.Retry, 0, 0, 0, none⟩).retryCount = 1 :=
  have h := retryCount_never_exceeds_max ⟨1, 10⟩ _
    (JobReachable.tail (JobReachable.submitted 1 [] 0 3 rfl)
      (JobStep.pick _ rfl)) 0 ⟨.Retry, 0, 0, 0, none⟩
  ⟨h.1, ((h.2 rfl rfl rfl).1 (by decide)).1, ((h.2 rfl rfl rfl).1 (by decide)).2⟩

/-- The state reached from a Running job at a step boundary is an edge target
of the §4.2 table. -/
lemma stepBoundary_edge (cfg : BackoffConfig) (now : Nat) (j : Job)
    (res : StepResult) (hj : j.state = .Running) :
    tableEdge .Running (stepBoundary cfg now j res).state = true := by
  unfold stepBoundary
  split
  · rfl
  split
  · rfl
  split
  · rfl
  · rfl
  · simp [tableEdge, hj]
  · split
    · rfl
    · rfl

/-- C3: a job's state is one of exactly the six `JobState` values of
`Core/Enumerations.h`; every job starts in `Pending`; no engine transition
leaves `Success` or `Failure`; and every state change of an engine
transition is an edge of the §4.2 transition table. -/
theorem state_machine_conforms :
    (∀ j : Job, j.state = .Pending ∨ j.state = .Running ∨ j.state = .Success ∨
      j.state = .Failure ∨ j.state = .Paused ∨ j.state = .Retry) ∧
    (∀ (id : Nat) (ops : List Operation) (priority : Int) (maxRetries : Nat),
      (initialJob id ops priority maxRetries).state = .Pending) ∧
    (∀ (cfg : BackoffConfig) (j k : Job), JobStep cfg j k →
      j.state ≠ .Success ∧ j.state ≠ .Failure) ∧
    (∀ (cfg : BackoffConfig) (j k : Job), JobStep cfg j k →
      j.state ≠ k.state → tableEdge j.state k.state = true) := by
  refine ⟨fun j => ?_, fun id ops priority maxRetries => rfl,
    fun cfg j k hs => ?_, fun cfg j k hs hne => ?_⟩
  · cases hj : j.state <;> simp
  · cases hs with
    | pick hj => rw [hj]; exact ⟨by simp, by simp⟩
    | retryPick now hj hn => rw [hj]; exact ⟨by simp, by simp⟩
    | step now res hj => rw [hj]; exact ⟨by simp, by simp⟩
    | doResume hj => rw [hj]; exact ⟨by simp, by simp⟩
    | setPauseFlag hj =>
        cases hstate : j.state <;> simp_all [pauseAllowed]
    | setCancelFlag hj =>
        cases hstate : j.state <;> simp_all [cancelAllowed]
  · cases hs with
    | pick hj => simp [markRunning, tableEdge, hj]
    | retryPick now hj hn => simp [markRunning, tableEdge, hj]
    | step now res hj => rw [hj]; exact stepBoundary_edge cfg now j res hj
    | doResume hj => simp [resumeJob, tableEdge, hj]
    | setPauseFlag hj => simp at hne
    | setCancelFlag hj => simp at hne

/-- Witness for C3: the Pending → Running scheduler pick and the Paused →
Pending resume, on concrete jobs, are table edges out of non-terminal
states. -/
theorem state_machine_conforms_witness :
    ((initialJob 1 [] 0 3).state = .Pending) ∧
    ((initialJob 1 [] 0 3).state ≠ .Success ∧
      (initialJob 1 [] 0 3).state ≠ .Failure) ∧
    tableEdge (initialJob 1 [] 0 3).state
      (markRunning (initialJob 1 [] 0 3)).state = true ∧
    tableEdge ({ initialJob 1 [] 0 3 with state := .Paused } : Job).state
      (resumeJob { initialJob 1 [] 0 3 with state := .Paused }).state = true :=
  ⟨state_machine_conforms.2.1 1 [] 0 3,
   state_machine_conforms.2.2.1 ⟨1, 10⟩ _ _ (JobStep.pick _ rfl),
   state_machine_conforms.2.2.2 ⟨1, 10⟩ _ _ (JobStep.pick _ rfl) (by decide),
   state_machine_conforms.2.2.2 ⟨1, 10⟩ _ _ (JobStep.doResume _ rfl) (by decide)⟩

/-- C4: in every reachable execution progress lies in `[0,1]`; a step
boundary that leaves the job Running never decreases progress; and a step
boundary that ends in `Success` sets progress to exactly 1. -/
theorem progress_range_monotone (cfg : BackoffConfig) (j : Job)
    (h : JobReachable cfg j) :
    0 ≤ j.progress ∧ j.progress ≤ 1 ∧
    (∀ (now : Nat) (res : StepResult), j.state = .Running →
      (stepBoundary cfg now j res).state = .Running →
      j.progress ≤ (stepBoundary cfg now j res).progress) ∧
    (∀ (now : Nat) (res : StepResult), j.state = .Running →
      (stepBoundary cfg now j res).state = .Success →
      (stepBoundary cfg now j res).progress = 1) := by
  refine ⟨(jobInv_reachable h).2.1, (jobInv_reachable h).2.2,
    fun now res hj hrun => ?_, fun now res hj hsucc => ?_⟩
  · by_cases hc : j.cancelRequested
    · simp [stepBoundary, hc] at hrun
    by_cases hp : j.pauseRequested
    · simp [stepBoundary, hc, hp] at hrun
    cases hcode : res.code with
    | Success => simp [stepBoundary, hc, hp, hcode] at hrun
    | Failure => simp [stepBoundary, hc, hp, hcode] at hrun
    | Continue => simp [stepBoundary, hc, hp, hcode]
    | Retry =>
        rcases Nat.lt_or_ge j.retryCount j.maxRetries with hlt | hge
        · simp [stepBoundary, hc, hp, hcode, hlt] at hrun
        · have hnlt : ¬ j.retryCount < j.maxRetries := by omega
          simp [stepBoundary, hc, hp, hcode, hnlt] at hrun
  · by_cases hc : j.cancelRequested
    · simp [stepBoundary, hc] at hsucc
    by_cases hp : j.pauseRequested
    · simp [stepBoundary, hc, hp] at hsucc
    cases hcode : res.code with
    | Success => simp [stepBoundary, hc, hp, hcode]
    | Failure => simp [stepBoundary, hc, hp, hcode] at hsucc
    | Continue => simp [stepBoundary, hc, hp, hcode, hj] at hsucc
    | Retry =>
        rcases Nat.lt_or_ge j.retryCount j.maxRetries with hlt | hge
        · simp [stepBoundary, hc, hp, hcode, hlt] at hsucc
        · have hnlt : ¬ j.retryCount < j.maxRetries := by omega
          simp [stepBoundary, hc, hp, hcode, hnlt] at hsucc

/-- Witness for C4: on the reachable Running job, a `Continue` step reporting
progress 1/2 keeps the job Running without decreasing progress, and a
`Success` step sets progress to 1. -/
theorem progress_range_monotone_witness :
    0 ≤ (markRunning (initialJob 1 [] 0 3)).progress ∧
    (markRunning (initialJob 1 [] 0 3)).progress ≤
      (stepBoundary ⟨1, 10⟩ 0 (markRunning (initialJob 1 [] 0 3))
        ⟨.Continue, 1, 1/2, 7, none⟩).progress ∧
    (stepBoundary ⟨1, 10⟩ 0 (markRunning (initialJob 1 [] 0 3))
      ⟨.Success, 1, 1, 7, none⟩).progress = 1 :=
  have h := progress_range_monotone ⟨1, 10⟩ _
    (JobReachable.tail (JobReachable.submitted 1 [] 0 3 rfl)
      (JobStep.pick _ rfl))
  ⟨h.1, h.2.2.1 0 ⟨.Continue, 1, 1/2, 7, none⟩ rfl (by decide),
   h.2.2.2 0 ⟨.Success, 1, 1, 7, none⟩ rfl (by decide)⟩

/-- C6: a Running job with the pause flag set (and no cancel pending) moves
to `Paused` at the next step boundary with its checkpoint preserved; `Resume`
then returns it to `Pending` at unchanged priority, and the checkpoint the
next scheduler pick hands to the chain is exactly the one recorded at pause
time. -/
theorem pause_resume_roundtrip (cfg : BackoffConfig) (now : Nat) (j : Job)
    (res : StepResult) (_hr : j.state = .Running) (hp : j.pauseRequested = true)
    (hc : j.cancelRequested = false) :
    (stepBoundary cfg now j res).state = .Paused ∧
    (stepBoundary cfg now j res).checkpoint = j.checkpoint ∧
    (stepBoundary cfg now j res).stopReason = some .Paused ∧
    (resumeJob (stepBoundary cfg now j res)).state = .Pending ∧
    (resumeJob (stepBoundary cfg now j res)).priority = j.priority ∧
    (resumeJob (stepBoundary cfg now j res)).checkpoint = j.checkpoint ∧
    (markRunning (resumeJob (stepBoundary cfg now j res))).checkpoint =
      j.checkpoint := by
  refine ⟨?_, ?_, ?_, ?_, ?_, ?_, ?_⟩ <;>
    simp [stepBoundary, resumeJob, markRunning, hp, hc]

/-- Witness for C6 on a concrete Running job with checkpoint 42 and the pause
flag set. -/
theorem pause_resume_roundtrip_witness :
    (stepBoundary ⟨1, 10⟩ 0
      { markRunning (initialJob 1 [] 5 3) with
          pauseRequested := true, checkpoint := 42 }
      ⟨.Continue, 1, 1, 7, none⟩).state = .Paused ∧
    (resumeJob (stepBoundary ⟨1, 10⟩ 0
      { markRunning (initialJob 1 [] 5 3) with
          pauseRequested := true, checkpoint := 42 }
      ⟨.Continue, 1, 1, 7, none⟩)).state = .Pending ∧
    (resumeJob (stepBoundary ⟨1, 10⟩ 0
      { markRunning (initialJob 1 [] 5 3) with
          pauseRequested := true, checkpoint := 42 }
      ⟨.Continue, 1, 1, 7, none⟩)).priority = 5 ∧
    (resumeJob (stepBoundary ⟨1, 10⟩ 0
      { markRunning (initialJob 1 [] 5 3) with
          pauseRequested := true, checkpoint := 42 }
      ⟨.Continue, 1, 1, 7, none⟩)).checkpoint = 42 :=
  have h := pause_resume_roundtrip ⟨1, 10⟩ 0
    { markRunning (initialJob 1 [] 5 3) with
        pauseRequested := true, checkpoint := 42 }
    ⟨.Continue, 1, 1, 7, none⟩ rfl rfl rfl
  ⟨h.1, h.2.2.2.1, h.2.2.2.2.1, h.2.2.2.2.2.1⟩

/-- One engine transition preserves a pending cancellation: the flag stays
set and the job cannot enter `Success`. -/
lemma cancel_sticky_step {cfg : BackoffConfig} {j k : Job}
    (hs : JobStep cfg j k) (hf : j.cancelRequested = true)
    (hns : j.state ≠ .Success) :
    k.cancelRequested = true ∧ k.state ≠ .Success := by
  cases hs with
  | pick hj => exact ⟨hf, by simp [markRunning]⟩
  | retryPick now hj hn => exact ⟨hf, by simp [markRunning]⟩
  | doResume hj => exact ⟨hf, by simp [resumeJob]⟩
  | setPauseFlag hj => exact ⟨hf, hns⟩
  | setCancelFlag hj => exact ⟨rfl, hns⟩
  | step now res hj => constructor <;> simp [stepBoundary, hf]

/-- A pending cancellation is preserved along every execution. -/
lemma cancel_sticky_reach {cfg : BackoffConfig} {j k : Job}
    (hr : ReachFrom cfg j k) (hf : j.cancelRequested = true)
    (hns : j.state ≠ .Success) :
    k.cancelRequested = true ∧ k.state ≠ .Success := by
  induction hr with
  | refl => exact ⟨hf, hns⟩
  | tail _ hs ih => exact cancel_sticky_step hs ih.1 ih.2

/-- C7: for a job whose cancel flag is set before any step runs (still
`Pending`), no reachable configuration is `Success`, the flag is never
cleared, and whenever the job is scheduled Running, the step boundary
observes the flag and ends the job in `Failure` with stop reason
`Canceled`. -/
theorem cancel_requested_never_success (cfg : BackoffConfig) (j : Job)
    (hf : j.cancelRequested = true) (hpend : j.state = .Pending) :
    (∀ k, ReachFrom cfg j k →
      k.state ≠ .Success ∧ k.cancelRequested = true) ∧
    (∀ (k : Job) (now : Nat) (res : StepResult), ReachFrom cfg j k →
      k.state = .Running →
      (stepBoundary cfg now k res).state = .Failure ∧
      (stepBoundary cfg now k res).stopReason = some .Canceled) := by
  have hns : j.state ≠ .Success := by simp [hpend]
  refine ⟨fun k hr => ?_, fun k now res hr hrun => ?_⟩
  · exact ⟨(cancel_sticky_reach hr hf hns).2, (cancel_sticky_reach hr hf hns).1⟩
  · have hk := (cancel_sticky_reach hr hf hns).1
    constructor <;> simp [stepBoundary, hk]

/-- Witness for C7: the concrete submitted job with the cancel flag raised,
once picked by the scheduler, fails with stop reason `Canceled` at its first
step boundary and its picked configuration is not `Success`. -/
theorem cancel_requested_never_success_witness :
    (markRunning { initialJob 1 [] 0 3 with cancelRequested := true }).state ≠
      JobState.Success ∧
    (stepBoundary ⟨1, 10⟩ 0
      (markRunning { initialJob 1 [] 0 3 with cancelRequested := true })
      ⟨.Continue, 1, 1, 7, none⟩).state = .Failure ∧
    (stepBoundary ⟨1, 10⟩ 0
      (markRunning { initialJob 1 [] 0 3 with cancelRequested := true })
      ⟨.Continue, 1, 1, 7, none⟩).stopReason = some .Canceled :=
  have h := cancel_requested_never_success ⟨1, 10⟩
    { initialJob 1 [] 0 3 with cancelRequested := true } rfl rfl
  have hreach : ReachFrom ⟨1, 10⟩
      { initialJob 1 [] 0 3 with cancelRequested := true }
      (markRunning { initialJob 1 [] 0 3 with cancelRequested := true }) :=
    ReachFrom.tail (ReachFrom.refl _) (JobStep.pick _ rfl)
  ⟨(h.1 _ hreach).1,
   (h.2 _ 0 ⟨.Continue, 1, 1, 7, none⟩ hreach rfl).1,
   (h.2 _ 0 ⟨.Continue, 1, 1, 7, none⟩ hreach rfl).2⟩

/-- Setting slot `i` of a list, the value read back at `i` is the one set. -/
lemma get?_set_self {α : Type} (l : List α) (i : Nat) (v : α)
    (h : i < l.length) : (l.set i v).get? i = some v := by
  rw [List.get?_eq_getElem?, List.getElem?_set_self]
  simpa using h

/-- Setting slot `i` of a list leaves every other slot unchanged. -/
lemma get?_set_other {α : Type} (l : List α) (i k : Nat) (v : α)
    (h : i ≠ k) : (l.set i v).get? k = l.get? k := by
  simp [List.get?_eq_getElem?, List.getElem?_set_ne h]

/-- When no worker owns `jid`, no worker slot reads `some jid`. -/
lemma not_owned_ne {p : PoolState} {jid : Nat}
    (h : p.jobOwned jid = false) (i : Nat) :
    p.workers.get? i ≠ some (some jid) := by
  intro hc
  have hmem := List.get?_mem hc
  simp [PoolState.jobOwned] at h
  exact h _ hmem rfl

/-- One pool transition preserves mutual exclusion of workers on jobs. -/
lemma exclusive_step {p q : PoolState} (hs : PoolStep p q)
    (h : Exclusive p) : Exclusive q := by
  cases hs with
  | acquire w jid s hw hj hr hown =>
      intro w₁ w₂ j' h₁ h₂
      have hwlt : w < p.workers.length := by
        rcases List.get?_eq_some.mp hw with ⟨hlt, _⟩
        exact hlt
      by_cases e₁ : w₁ = w
      · by_cases e₂ : w₂ = w
        · rw [e₁, e₂]
        · exfalso
          rw [e₁, get?_set_self _ _ _ hwlt] at h₁
          rw [get?_set_other _ _ _ _ (fun hww => e₂ hww.symm)] at h₂
          have : j' = jid := by simpa using h₁.symm
          exact not_owned_ne hown w₂ (this ▸ h₂)
      · by_cases e₂ : w₂ = w
        · exfalso
          rw [e₂, get?_set_self _ _ _ hwlt] at h₂
          rw [get?_set_other _ _ _ _ (fun hww => e₁ hww.symm)] at h₁
          have : j' = jid := by simpa using h₂.symm
          exact not_owned_ne hown w₁ (this ▸ h₁)
        · rw [get?_set_other _ _ _ _ (fun hww => e₁ hww.symm)] at h₁
          rw [get?_set_other _ _ _ _ (fun hww => e₂ hww.symm)] at h₂
          exact h w₁ w₂ j' h₁ h₂
  | finish w jid s hw =>
      intro w₁ w₂ j' h₁ h₂
      have hwlt : w < p.workers.length := by
        rcases List.get?_eq_some.mp hw with ⟨hlt, _⟩
        exact hlt
      by_cases e₁ : w₁ = w
      · exfalso
        rw [e₁, get?_set_self _ _ _ hwlt] at h₁
        exact Option.noConfusion (Option.some.inj h₁)
      · by_cases e₂ : w₂ = w
        · exfalso
          rw [e₂, get?_set_self _ _ _ hwlt] at h₂
          exact Option.noConfusion (Option.some.inj h₂)
        · rw [get?_set_other _ _ _ _ (fun hww => e₁ hww.symm)] at h₁
          rw [get?_set_other _ _ _ _ (fun hww => e₂ hww.symm)] at h₂
          exact h w₁ w₂ j' h₁ h₂

/-- C9: in every reachable state of the worker pool at most one worker holds
any given job — the atomic mark-Running makes per-job execution strictly
serialized, so two workers never run the same job. -/
theorem at_most_one_worker_per_job (p : PoolState) (h : PoolReachable p) :
    Exclusive p := by
  induction h with
  | init jobs n =>
      intro w₁ w₂ jid h₁ h₂
      simp [List.get?_eq_getElem?, List.getElem?_replicate] at h₁
  | tail _ hs ih => exact exclusive_step hs ih

/-- Witness for C9: the pool state reached by one worker of a two-worker pool
atomically acquiring the single Pending job is exclusive. -/
theorem at_most_one_worker_per_job_witness :
    Exclusive ⟨[(1, JobState.Running)], [some 1, none]⟩ :=
  at_most_one_worker_per_job _
    (PoolReachable.tail (PoolReachable.init [(1, JobState.Pending)] 2)
      (PoolStep.acquire _ 0 1 JobState.Pending rfl rfl rfl rfl))

end Orthanc
